import Mathlib

/-!
Verification of the clock-synchronization core of the
red-button-trigger-timestamp repository against its specification.

Shallow embedding conventions:
* `chrono::DateTime<Utc>` and `chrono::TimeDelta` are modelled as exact
  integer nanosecond counts (`Int`).  `DateTime` subtraction is exact at
  nanosecond resolution; `TimeDelta` comparison is the order on total
  nanoseconds.  `TimeDelta / 2` (chrono's `Div<i32>` on the normalized
  secs/nanos representation) coincides with floor division of the total
  nanosecond count by 2, and `num_microseconds()` rounds the total
  nanosecond count toward zero, i.e. truncating division by 1000.
* `u64` arithmetic uses release-mode (wrapping) semantics:
  `a - b` on `u64` is modelled by `u64Sub`.
* `f64` values appearing in the clock model (sample coordinates, gain,
  offset) are modelled by exact rationals `ℚ`; `x as i64` is truncation
  toward zero, saturating at the `i64` range as Rust float-to-int casts do.
  `i64::MAX as f64` rounds to 2^63 (the exact value 2^63 - 1 is not an
  `f64`), and `i64::MIN as f64` is exactly -2^63.
* `lstsq::lstsq` (SVD-based least squares with singular values below the
  tolerance treated as zero) is modelled exactly over `ℚ`: when the normal
  equations of the 2-column system are nonsingular it returns the unique
  ordinary-least-squares solution, and when they are singular (all
  regressor values equal, or an empty system) it returns the minimum-norm
  least-squares solution, which is what the truncated SVD pseudo-inverse
  computes.  In particular it does not return an error on rank-deficient
  input, so the `.unwrap()` in `InnerModel::from_samples` is not reached
  by degeneracy.
-/

namespace RedButton

/-- Wrapping subtraction on u64 (release-mode semantics of `a - b`). -/
def u64Sub (a b : Nat) : Nat := (a + 2 ^ 64 - b) % 2 ^ 64

/-- Truncation of a rational toward zero, as Rust's `as i64` cast does
before saturation. -/
def truncQ (q : ℚ) : ℤ := if 0 ≤ q then ⌊q⌋ else ⌈q⌉

/-- Saturating f64-to-i64 cast applied to the exact rational value. -/
def i64SatTrunc (q : ℚ) : ℤ := max (-(2 ^ 63)) (min (2 ^ 63 - 1) (truncQ q))

/-- Sum of the first coordinates (the regressor column pushed from
`row.0` in `fit_time_model`). -/
def sumX (l : List (ℚ × ℚ)) : ℚ := (l.map Prod.fst).sum

/-- Sum of the second coordinates (the dependent column pushed from
`row.1` in `fit_time_model`). -/
def sumY (l : List (ℚ × ℚ)) : ℚ := (l.map Prod.snd).sum

/-- Sum of squares of the regressor column. -/
def sumXX (l : List (ℚ × ℚ)) : ℚ := (l.map (fun p => p.1 * p.1)).sum

/-- Sum of products of regressor and dependent columns. -/
def sumXY (l : List (ℚ × ℚ)) : ℚ := (l.map (fun p => p.1 * p.2)).sum

/-- Determinant of the 2x2 normal equations of the system
`row.1 ≈ gain * row.0 + offset`. -/
def detNE (l : List (ℚ × ℚ)) : ℚ :=
  (l.length : ℚ) * sumXX l - sumX l * sumX l

/-- Minimum-norm point of the solution line of a rank-one system whose
rows are all `(c, 1)` with right-hand mean `m`. -/
def minNormFit (c m : ℚ) : ℚ × ℚ := (c * m / (c * c + 1), m / (c * c + 1))

/-- Embeds `fit_time_model` (clock_model.rs lines 16-40).  The Rust code
builds the n x 2 matrix with rows `(row.0, 1)` and right-hand side
`row.1`, and calls `lstsq::lstsq`, i.e. the truncated-SVD pseudo-inverse:
the unique least-squares solution when the system has full column rank,
and the minimum-norm least-squares solution otherwise.  Over exact
rationals full column rank is `detNE l ≠ 0`; rank deficiency means all
regressor values are equal (value `sumX l / n`), where the least-squares
solutions are the line `gain * c + offset = mean` and the minimum-norm
one is `minNormFit`.  Returns `(gain, offset)`. -/
def fit_time_model (l : List (ℚ × ℚ)) : ℚ × ℚ :=
  let n : ℚ := (l.length : ℚ)
  if detNE l = 0 then
    if l.length = 0 then (0, 0)
    else minNormFit (sumX l / n) (sumY l / n)
  else
    ((n * sumXY l - sumX l * sumY l) / detNE l,
     (sumXX l * sumY l - sumX l * sumXY l) / detNE l)

/-- Embeds the `ClockModel` struct (clock_model.rs lines 70-77).
`epoch` is the creation instant in integer nanoseconds, `samples` holds
`(est_time_micros, normalized_device_timestamp)` pairs front-to-back as
the `VecDeque` does, `model` is the optional `(gain, offset)` pair. -/
structure ClockModel where
  epoch : Int
  device_epoch : Option Nat
  max_rtt : Int
  samples : List (ℚ × ℚ)
  model : Option (ℚ × ℚ)
deriving DecidableEq

/-- Embeds `ClockModel::new` (clock_model.rs lines 86-94); the epoch is
the `Utc::now()` value at creation, passed explicitly here. -/
def ClockModel.new (epoch max_rtt : Int) : ClockModel :=
  { epoch := epoch, device_epoch := none, max_rtt := max_rtt,
    samples := [], model := none }

/-- Embeds the `while self.samples.len() > 100 { self.samples.pop_front() }`
loop (clock_model.rs lines 117-119): drop oldest entries from the front
until at most 100 remain. -/
def windowTrim (l : List (ℚ × ℚ)) : List (ℚ × ℚ) := l.drop (l.length - 100)

/-- Estimated host time of a sample in nanoseconds relative to the
epoch: `est_time = t0 + rtt / 2` (clock_model.rs line 113), with `t0`,
`t1` the absolute send/receive instants in nanoseconds. -/
def estTimeNanos (epoch t0 t1 : Int) : Int :=
  (t0 - epoch) + Int.fdiv (t1 - t0) 2

/-- Estimated host time in microseconds relative to the epoch:
`est_time.num_microseconds().unwrap()` (clock_model.rs line 114). -/
def estMicros (epoch t0 t1 : Int) : Int :=
  Int.tdiv (estTimeNanos epoch t0 t1) 1000

/-- Sample pair pushed onto the window by `update` (clock_model.rs
lines 115-116): estimated host microseconds and normalized (wrapping
u64) device timestamp, both cast to float. -/
def sampleOf (s : ClockModel) (t0 t1 : Int) (k : Nat) : ℚ × ℚ :=
  ((estMicros s.epoch t0 t1 : ℚ), ((u64Sub k (s.device_epoch.getD k) : Nat) : ℚ))

/-- Embeds `ClockModel::update` (clock_model.rs lines 95-129).  `t0` and
`t1` are the absolute send/receive instants in nanoseconds and `k` the
raw device timestamp.  Note `rtt = (t1 - epoch) - (t0 - epoch) = t1 - t0`
exactly, and that the device epoch is established (lines 99-101) before
the round-trip-time check (line 106). -/
def ClockModel.update (s : ClockModel) (t0 t1 : Int) (k : Nat) : ClockModel :=
  if t1 - t0 > s.max_rtt then
    { s with device_epoch := some (s.device_epoch.getD k) }
  else
    let samples2 := windowTrim (s.samples ++ [sampleOf s t0 t1 k])
    { s with device_epoch := some (s.device_epoch.getD k),
             samples := samples2,
             model := if 10 ≤ samples2.length then some (fit_time_model samples2)
                      else s.model }

/-- Embeds `ClockModel::compute_utc` (clock_model.rs lines 131-160),
returning the estimated absolute time in nanoseconds.  The normalized
device timestamp uses wrapping u64 subtraction; the range guards compare
against `i64::MAX as f64 = 2^63` and `i64::MIN as f64 = -2^63`. -/
def ClockModel.compute_utc (s : ClockModel) (k : Nat) : Option Int :=
  match s.device_epoch with
  | none => none
  | some de =>
    match s.model with
    | none => none
    | some go =>
      let est : ℚ := ((u64Sub k de : Nat) : ℚ) * go.1 + go.2
      if est > ((2 : ℚ) ^ 63) then none
      else if est < -((2 : ℚ) ^ 63) then none
      else some (s.epoch + 1000 * i64SatTrunc est)

/-- Folds a list of `(t0, t1, k)` ping exchanges through `update`. -/
def applyUpdates (s : ClockModel) (us : List (Int × Int × Nat)) : ClockModel :=
  us.foldl (fun a u => a.update u.1 u.2.1 u.2.2) s

/-- Sum of squared residuals of the system the code actually solves:
`row.1 ≈ gain * row.0 + offset`, i.e. normalized device tick regressed on
estimated host time (clock_model.rs lines 24-28 build the design matrix
from `row.0` and the right-hand side from `row.1`, and the samples are
pushed as `(est_time_micros, device_timestamp)` on lines 115-116). -/
def ssr (l : List (ℚ × ℚ)) (g o : ℚ) : ℚ :=
  (l.map (fun p => (p.2 - (g * p.1 + o)) ^ 2)).sum

/-- Sum of squared residuals in the direction the specification text
describes: `host_time ≈ gain * tick + offset`, host time (the first
stored coordinate) as the dependent variable and normalized device tick
(the second stored coordinate) as the regressor.  Stated from the spec's
words, for comparison with the code's `ssr`. -/
def ssrHost (l : List (ℚ × ℚ)) (g o : ℚ) : ℚ :=
  (l.map (fun p => (p.1 - (g * p.2 + o)) ^ 2)).sum

/-- Normalized sample produced for exchange `u = (t0, t1, k)` once the
device epoch `e` and host epoch `ep` are fixed. -/
def sampleVal (ep : Int) (e : Nat) (u : Int × Int × Nat) : ℚ × ℚ :=
  ((estMicros ep u.1 u.2.1 : ℚ), ((u64Sub u.2.2 e : Nat) : ℚ))

/-- Number of exchanges in `us` whose round-trip time passes the filter
`rtt ≤ m` (the complement of the discard condition on line 106). -/
def acceptedCount (m : Int) (us : List (Int × Int × Nat)) : Nat :=
  us.countP (fun u => decide (u.2.1 - u.1 ≤ m))

/-! Wire protocol messages.  The comms crate
(red-button-trigger-timestamp-comms/src/lib.rs) declares the two tagged
unions used by the host. -/

/-- Embeds the comms crate's `ToDevice` (lib.rs lines 34-39): `Ping`
carries no payload. -/
inductive ToDevice where
  | Ping
  | VersionRequest
deriving DecidableEq

/-- Embeds the comms crate's `FromDevice` (lib.rs lines 26-32):
`Pong` and `Trigger` each carry a single u64 device tick. -/
inductive FromDevice where
  | Pong (device_tick : Nat)
  | Trigger (device_tick : Nat)
  | VersionResponse (name : List Nat) (version : Nat)
deriving DecidableEq

/-- The u64 payload list of a comms-crate `FromDevice` message. -/
def fromDevicePayload : FromDevice → List Nat
  | .Pong t => [t]
  | .Trigger t => [t]
  | .VersionResponse _ v => [v]

/-- The request type the firmware actually matches on
(firmware/src/main.rs line 178): its only variant is a `Ping` carrying a
u64 value, unlike the comms crate's payload-less `Ping`. -/
inductive FwToDevice where
  | Ping (val : Nat)
deriving DecidableEq

/-- The responses the firmware actually constructs
(firmware/src/main.rs lines 150 and 180): `Pong` carries two u64 values
(the echoed ping value and the current tick), `Trigger` carries one. -/
inductive FwResponse where
  | Pong (val now : Nat)
  | Trigger (now : Nat)
deriving DecidableEq

/-- The u64 payload list of a firmware response. -/
def fwResponsePayload : FwResponse → List Nat
  | .Pong a b => [a, b]
  | .Trigger a => [a]

/-- Embeds the firmware's inbound-message handler (firmware/src/main.rs
lines 175-185): on a decoded `Ping(val)` it reads the monotonic counter
(`now`, passed explicitly here) and sends `Pong(val, now)`. -/
def fwHandleMsg (msg : FwToDevice) (now : Nat) : FwResponse :=
  match msg with
  | .Ping val => .Pong val now

/-! Concrete instances used by counterexamples and witnesses. -/

/-- Ten accepted exchanges: send = receive = i milliseconds (zero RTT),
device tick 2000 * i, so the stored window is
(host microseconds, tick) = (1000 i, 2000 i) for i = 0..9. -/
def c1us : List (Int × Int × Nat) :=
  [(0, 0, 0), (1000000, 1000000, 2000), (2000000, 2000000, 4000),
   (3000000, 3000000, 6000), (4000000, 4000000, 8000), (5000000, 5000000, 10000),
   (6000000, 6000000, 12000), (7000000, 7000000, 14000),
   (8000000, 8000000, 16000), (9000000, 9000000, 18000)]

/-- The first nine exchanges of `c1us`. -/
def c1usInit : List (Int × Int × Nat) :=
  [(0, 0, 0), (1000000, 1000000, 2000), (2000000, 2000000, 4000),
   (3000000, 3000000, 6000), (4000000, 4000000, 8000), (5000000, 5000000, 10000),
   (6000000, 6000000, 12000), (7000000, 7000000, 14000),
   (8000000, 8000000, 16000)]

/-- State after ingesting all of `c1us` from a fresh model. -/
def sC1 : ClockModel := applyUpdates (ClockModel.new 0 20000000) c1us

/-- State after ingesting the first nine exchanges of `c1us`. -/
def sC1i : ClockModel := applyUpdates (ClockModel.new 0 20000000) c1usInit

/-- A model state holding nine samples whose host coordinates are all 0
(a frozen host-time column) and a previously fitted model (7, 7). -/
def s2deg : ClockModel :=
  { epoch := 0, device_epoch := some 0, max_rtt := 20000000,
    samples := (List.range 9).map (fun i => ((0 : ℚ), (i : ℚ))), model := some (7, 7) }

/-- A model state whose device-epoch anchor is 10 and whose fitted model
is gain 1/1000, offset 0. -/
def s4wrap : ClockModel :=
  { epoch := 0, device_epoch := some 10, max_rtt := 20000000,
    samples := [], model := some (1/1000, 0) }

/-! Basic lemmas about the window and the update operation. -/

theorem windowTrim_of_le {l : List (ℚ × ℚ)} (h : l.length ≤ 100) : windowTrim l = l := by
  simp [windowTrim, Nat.sub_eq_zero_of_le h]

theorem windowTrim_length_le (l : List (ℚ × ℚ)) : (windowTrim l).length ≤ 100 := by
  simp only [windowTrim, List.length_drop]
  omega

theorem windowTrim_append (l r : List (ℚ × ℚ)) :
    windowTrim (windowTrim l ++ r) = windowTrim (l ++ r) := by
  simp only [windowTrim]
  rw [List.drop_append_eq_append_drop, List.drop_append_eq_append_drop, List.drop_drop]
  simp only [List.length_append, List.length_drop]
  congr 1
  · congr 1
    omega
  · congr 1
    omega

theorem windowTrim_concat_getLast? (l : List (ℚ × ℚ)) (x : ℚ × ℚ) :
    (windowTrim (l ++ [x])).getLast? = some x := by
  simp only [windowTrim, List.length_append, List.length_cons, List.length_nil]
  rw [List.drop_append_of_le_length (by omega)]
  exact List.getLast?_concat _

theorem update_rejected (s : ClockModel) (t0 t1 : Int) (k : Nat)
    (h : t1 - t0 > s.max_rtt) :
    s.update t0 t1 k = { s with device_epoch := some (s.device_epoch.getD k) } := by
  simp [ClockModel.update, h]

theorem update_accepted (s : ClockModel) (t0 t1 : Int) (k : Nat)
    (h : t1 - t0 ≤ s.max_rtt) :
    s.update t0 t1 k =
      { s with device_epoch := some (s.device_epoch.getD k),
               samples := windowTrim (s.samples ++ [sampleOf s t0 t1 k]),
               model := if 10 ≤ (windowTrim (s.samples ++ [sampleOf s t0 t1 k])).length
                        then some (fit_time_model (windowTrim (s.samples ++ [sampleOf s t0 t1 k])))
                        else s.model } := by
  simp [ClockModel.update, not_lt.2 h]

theorem update_epoch (s : ClockModel) (t0 t1 : Int) (k : Nat) :
    (s.update t0 t1 k).epoch = s.epoch := by
  by_cases h : t1 - t0 > s.max_rtt
  · rw [update_rejected s t0 t1 k h]
  · rw [update_accepted s t0 t1 k (not_lt.1 h)]

theorem update_max_rtt (s : ClockModel) (t0 t1 : Int) (k : Nat) :
    (s.update t0 t1 k).max_rtt = s.max_rtt := by
  by_cases h : t1 - t0 > s.max_rtt
  · rw [update_rejected s t0 t1 k h]
  · rw [update_accepted s t0 t1 k (not_lt.1 h)]

theorem update_device_epoch (s : ClockModel) (t0 t1 : Int) (k : Nat) :
    (s.update t0 t1 k).device_epoch = some (s.device_epoch.getD k) := by
  by_cases h : t1 - t0 > s.max_rtt
  · rw [update_rejected s t0 t1 k h]
  · rw [update_accepted s t0 t1 k (not_lt.1 h)]

theorem compute_utc_of_model_none {s : ClockModel} (h : s.model = none) (k : Nat) :
    s.compute_utc k = none := by
  cases hd : s.device_epoch <;> simp [ClockModel.compute_utc, hd, h]

/-! Least-squares theory for the system the code solves. -/

theorem sumX_cons (p : ℚ × ℚ) (l : List (ℚ × ℚ)) : sumX (p :: l) = p.1 + sumX l := by
  simp [sumX]

theorem sumY_cons (p : ℚ × ℚ) (l : List (ℚ × ℚ)) : sumY (p :: l) = p.2 + sumY l := by
  simp [sumY]

theorem sumXX_cons (p : ℚ × ℚ) (l : List (ℚ × ℚ)) :
    sumXX (p :: l) = p.1 * p.1 + sumXX l := by
  simp [sumXX]

theorem sumXY_cons (p : ℚ × ℚ) (l : List (ℚ × ℚ)) :
    sumXY (p :: l) = p.1 * p.2 + sumXY l := by
  simp [sumXY]

/-- Exact decomposition of the sum of squared residuals at an arbitrary
candidate (g', o') around a reference (g, o): the difference is a sum of
squares plus a cross term controlled by the normal equations. -/
theorem ssr_decomp (l : List (ℚ × ℚ)) (g o g' o' : ℚ) :
    ssr l g' o' = ssr l g o
      + (l.map (fun p => ((g - g') * p.1 + (o - o')) ^ 2)).sum
      + 2 * ((g - g') * (sumXY l - g * sumXX l - o * sumX l)
           + (o - o') * (sumY l - g * sumX l - o * (l.length : ℚ))) := by
  induction l with
  | nil => simp [ssr, sumX, sumY, sumXX, sumXY]
  | cons p l ih =>
    simp only [ssr, List.map_cons, List.sum_cons, sumX_cons, sumY_cons, sumXX_cons,
      sumXY_cons, List.length_cons, Nat.cast_add, Nat.cast_one] at ih ⊢
    rw [ih]
    ring

/-- Any pair satisfying the two normal equations of the system
`p.2 ≈ g * p.1 + o` minimizes the sum of squared residuals. -/
theorem ssr_le_of_normal_eqs (l : List (ℚ × ℚ)) (g o g' o' : ℚ)
    (h1 : sumXY l - g * sumXX l - o * sumX l = 0)
    (h2 : sumY l - g * sumX l - o * (l.length : ℚ) = 0) :
    ssr l g o ≤ ssr l g' o' := by
  rw [ssr_decomp l g o g' o', h1, h2]
  have hnn : 0 ≤ (l.map (fun p => ((g - g') * p.1 + (o - o')) ^ 2)).sum := by
    apply List.sum_nonneg
    intro x hx
    rcases List.mem_map.1 hx with ⟨p, _, rfl⟩
    positivity
  linarith

/-- In the full-rank case, `fit_time_model` returns the unique solution
of the normal equations. -/
theorem fit_normal_eqs (l : List (ℚ × ℚ)) (hdet : detNE l ≠ 0) :
    sumXY l - (fit_time_model l).1 * sumXX l - (fit_time_model l).2 * sumX l = 0 ∧
    sumY l - (fit_time_model l).1 * sumX l - (fit_time_model l).2 * (l.length : ℚ) = 0 := by
  have hd : detNE l = (l.length : ℚ) * sumXX l - sumX l * sumX l := rfl
  simp only [fit_time_model, if_neg hdet]
  constructor
  · field_simp
    rw [hd]
    ring
  · field_simp
    rw [hd]
    ring

theorem sumX_of_const {c : ℚ} {l : List (ℚ × ℚ)} (h : ∀ p ∈ l, p.1 = c) :
    sumX l = (l.length : ℚ) * c := by
  induction l with
  | nil => simp [sumX]
  | cons p l ih =>
    rw [sumX_cons, ih (fun q hq => h q (List.mem_cons_of_mem p hq)),
      h p (List.mem_cons_self p l)]
    push_cast [List.length_cons]
    ring

theorem sumXX_of_const {c : ℚ} {l : List (ℚ × ℚ)} (h : ∀ p ∈ l, p.1 = c) :
    sumXX l = (l.length : ℚ) * (c * c) := by
  induction l with
  | nil => simp [sumXX]
  | cons p l ih =>
    rw [sumXX_cons, ih (fun q hq => h q (List.mem_cons_of_mem p hq)),
      h p (List.mem_cons_self p l)]
    push_cast [List.length_cons]
    ring

theorem sumXY_of_const {c : ℚ} {l : List (ℚ × ℚ)} (h : ∀ p ∈ l, p.1 = c) :
    sumXY l = c * sumY l := by
  induction l with
  | nil => simp [sumXY, sumY]
  | cons p l ih =>
    rw [sumXY_cons, sumY_cons, ih (fun q hq => h q (List.mem_cons_of_mem p hq)),
      h p (List.mem_cons_self p l)]
    ring

theorem detNE_of_const {c : ℚ} {l : List (ℚ × ℚ)} (h : ∀ p ∈ l, p.1 = c) :
    detNE l = 0 := by
  rw [detNE, sumX_of_const h, sumXX_of_const h]
  ring

/-- On a rank-deficient window (all regressor values equal), the embedded
fit returns the minimum-norm least-squares solution. -/
theorem fit_of_const {c : ℚ} {l : List (ℚ × ℚ)} (h : ∀ p ∈ l, p.1 = c)
    (hne : l.length ≠ 0) :
    fit_time_model l = minNormFit c (sumY l / (l.length : ℚ)) := by
  have hn : ((l.length : ℚ)) ≠ 0 := Nat.cast_ne_zero.2 hne
  simp only [fit_time_model, if_pos (detNE_of_const h), if_neg hne]
  rw [sumX_of_const h]
  congr 1
  field_simp

/-- The minimum-norm solution of a rank-deficient window satisfies the
normal equations, hence is a least-squares solution. -/
theorem minNorm_normal_eqs {c : ℚ} {l : List (ℚ × ℚ)} (h : ∀ p ∈ l, p.1 = c)
    (hne : l.length ≠ 0) :
    sumXY l - (minNormFit c (sumY l / (l.length : ℚ))).1 * sumXX l
      - (minNormFit c (sumY l / (l.length : ℚ))).2 * sumX l = 0 ∧
    sumY l - (minNormFit c (sumY l / (l.length : ℚ))).1 * sumX l
      - (minNormFit c (sumY l / (l.length : ℚ))).2 * (l.length : ℚ) = 0 := by
  have hn : ((l.length : ℚ)) ≠ 0 := Nat.cast_ne_zero.2 hne
  have hc : c * c + 1 ≠ 0 :=
    ne_of_gt (by nlinarith [mul_self_nonneg c])
  rw [sumXY_of_const h, sumXX_of_const h, sumX_of_const h]
  simp only [minNormFit]
  constructor
  · field_simp
    ring
  · field_simp
    ring

/-- For an accepted sample that brings the window to at least 10 entries,
the refit installs the fit over the whole current window. -/
theorem update_model_of_accepted {s : ClockModel} {t0 t1 : Int} {k : Nat}
    (hacc : t1 - t0 ≤ s.max_rtt)
    (hlen : 10 ≤ ((s.update t0 t1 k).samples).length) :
    (s.update t0 t1 k).model = some (fit_time_model ((s.update t0 t1 k).samples)) := by
  have hup := update_accepted s t0 t1 k hacc
  have hsamp : (s.update t0 t1 k).samples
      = windowTrim (s.samples ++ [sampleOf s t0 t1 k]) := by rw [hup]
  rw [hsamp] at hlen ⊢
  rw [hup]
  simp only [if_pos hlen]

/-! Claim theorems. -/

/-- Claim C1, counterexample: after ten accepted exactly-affine samples
(host microseconds 1000 i, normalized tick 2000 i), the installed model
is (gain, offset) = (2, 0); but the pair minimizing the sum of squared
residuals of host_time ≈ gain·tick + offset (host time as the dependent
variable, as the claim states the regression) is (1/2, 0), which has
strictly smaller ssrHost.  The installed pair therefore does not minimize
the claimed objective. -/
theorem C1_counterexample :
    sC1.model = some (2, 0) ∧ ssrHost sC1.samples (1/2) 0 < ssrHost sC1.samples 2 0 := by
  norm_num [sC1, c1us, applyUpdates, ClockModel.new, ClockModel.update, windowTrim,
    sampleOf, estMicros, estTimeNanos, u64Sub, fit_time_model, detNE, sumX, sumY,
    sumXX, sumXY, minNormFit, ssrHost, List.foldl,
    (by decide : Int.tdiv 1000000 1000 = 1000),
    (by decide : Int.tdiv 2000000 1000 = 2000),
    (by decide : Int.tdiv 3000000 1000 = 3000),
    (by decide : Int.tdiv 4000000 1000 = 4000),
    (by decide : Int.tdiv 5000000 1000 = 5000),
    (by decide : Int.tdiv 6000000 1000 = 6000),
    (by decide : Int.tdiv 7000000 1000 = 7000),
    (by decide : Int.tdiv 8000000 1000 = 8000),
    (by decide : Int.tdiv 9000000 1000 = 9000)]

/-- Claim C1, amended: for a window of at least 10 samples with
nonsingular normal equations, the (gain, offset) pair installed by the
refit minimizes the sum of squared residuals of
device_tick ≈ gain·host_time + offset (ordinary least squares with the
normalized device tick as the dependent variable and host time as the
regressor), and compute_utc then predicts
normalized_tick·gain + offset microseconds relative to the epoch
anchor. -/
theorem C1_least_squares (s : ClockModel) (t0 t1 : Int) (k : Nat) (g o g' o' : ℚ)
    (tk e : Nat)
    (hacc : t1 - t0 ≤ s.max_rtt)
    (hlen : 10 ≤ ((s.update t0 t1 k).samples).length)
    (hdet : detNE ((s.update t0 t1 k).samples) ≠ 0)
    (hmodel : (s.update t0 t1 k).model = some (g, o))
    (he : (s.update t0 t1 k).device_epoch = some e)
    (hlo : -((2 : ℚ) ^ 63) ≤ ((u64Sub tk e : Nat) : ℚ) * g + o)
    (hhi : ((u64Sub tk e : Nat) : ℚ) * g + o ≤ (2 : ℚ) ^ 63) :
    ssr ((s.update t0 t1 k).samples) g o ≤ ssr ((s.update t0 t1 k).samples) g' o' ∧
    (s.update t0 t1 k).compute_utc tk
      = some (s.epoch + 1000 * i64SatTrunc (((u64Sub tk e : Nat) : ℚ) * g + o)) := by
  have hmod := update_model_of_accepted hacc hlen
  have hfit : fit_time_model ((s.update t0 t1 k).samples) = (g, o) :=
    Option.some.inj (hmod.symm.trans hmodel)
  have hne := fit_normal_eqs ((s.update t0 t1 k).samples) hdet
  rw [hfit] at hne
  constructor
  · exact ssr_le_of_normal_eqs _ g o g' o' hne.1 hne.2
  · rw [ClockModel.compute_utc, he, hmodel]
    simp only
    rw [if_neg (not_lt.2 hhi), if_neg (not_lt.2 hlo), update_epoch]

/-- Claim C1, witness for the amended theorem: the tenth exchange of
c1us applied to the state after the first nine installs (2, 0), a
least-squares minimizer of the tick-on-host objective, and compute_utc
predicts tick·gain + offset microseconds past the epoch. -/
theorem C1_least_squares_witness :
    ssr ((sC1i.update 9000000 9000000 18000).samples) 2 0
      ≤ ssr ((sC1i.update 9000000 9000000 18000).samples) (1/2) 0 ∧
    (sC1i.update 9000000 9000000 18000).compute_utc 19000
      = some (sC1i.epoch + 1000 * i64SatTrunc (((u64Sub 19000 0 : Nat) : ℚ) * 2 + 0)) := by
  have hfin : sC1i.update 9000000 9000000 18000
      = { epoch := 0, device_epoch := some 0, max_rtt := 20000000,
          samples := [((0 : ℚ), (0 : ℚ)), (1000, 2000), (2000, 4000), (3000, 6000),
            (4000, 8000), (5000, 10000), (6000, 12000), (7000, 14000), (8000, 16000),
            (9000, 18000)],
          model := some (2, 0) } := by
    norm_num [sC1i, c1usInit, applyUpdates, ClockModel.new, ClockModel.update, windowTrim,
      sampleOf, estMicros, estTimeNanos, u64Sub, fit_time_model, detNE, sumX, sumY,
      sumXX, sumXY, minNormFit, List.foldl, ClockModel.mk.injEq,
      (by decide : Int.tdiv 1000000 1000 = 1000),
      (by decide : Int.tdiv 2000000 1000 = 2000),
      (by decide : Int.tdiv 3000000 1000 = 3000),
      (by decide : Int.tdiv 4000000 1000 = 4000),
      (by decide : Int.tdiv 5000000 1000 = 5000),
      (by decide : Int.tdiv 6000000 1000 = 6000),
      (by decide : Int.tdiv 7000000 1000 = 7000),
      (by decide : Int.tdiv 8000000 1000 = 8000),
      (by decide : Int.tdiv 9000000 1000 = 9000)]
  have hmax : sC1i.max_rtt = 20000000 := by
    have hpres := update_max_rtt sC1i 9000000 9000000 18000
    rw [hfin] at hpres
    exact hpres.symm
  exact C1_least_squares sC1i 9000000 9000000 18000 2 0 (1/2) 0 19000 0
    (by rw [hmax]; norm_num)
    (by rw [hfin]; norm_num)
    (by rw [hfin]; norm_num [detNE, sumX, sumXX])
    (by rw [hfin])
    (by rw [hfin])
    (by norm_num [u64Sub])
    (by norm_num [u64Sub])

/-- Claim C2, counterexample: ingesting a tenth sample whose host-time
column is constant (a degenerate window) does not retain the previously
stored model (7, 7); the minimum-norm least-squares solution (0, 9/2)
replaces it. -/
theorem C2_counterexample :
    s2deg.model = some (7, 7) ∧ (s2deg.update 0 0 9).model = some (0, 9/2) ∧
    (s2deg.update 0 0 9).model ≠ s2deg.model := by
  have h2 : (s2deg.update 0 0 9).model = some (0, 9/2) := by
    norm_num [s2deg, ClockModel.update, windowTrim, sampleOf, estMicros, estTimeNanos,
      u64Sub, fit_time_model, detNE, sumX, sumY, sumXX, sumXY, minNormFit,
      List.range_succ]
  refine ⟨rfl, h2, ?_⟩
  rw [h2]
  simp only [s2deg, Option.some.injEq, Prod.mk.injEq, ne_eq]
  norm_num

/-- Claim C2, amended: if the refit over the current window is
numerically degenerate (all stored host-time regressor values equal),
the ingest operation does not crash: lstsq returns the minimum-norm
least-squares solution of the degenerate system — a true least-squares
minimizer — and installs it, replacing (not retaining) any previously
stored model. -/
theorem C2_degenerate_refit (s : ClockModel) (t0 t1 : Int) (k : Nat) (c g' o' : ℚ)
    (hacc : t1 - t0 ≤ s.max_rtt)
    (hlen : 10 ≤ ((s.update t0 t1 k).samples).length)
    (hall : ∀ p ∈ (s.update t0 t1 k).samples, p.1 = c) :
    (s.update t0 t1 k).model
      = some (minNormFit c (sumY ((s.update t0 t1 k).samples)
          / (((s.update t0 t1 k).samples).length : ℚ))) ∧
    ssr ((s.update t0 t1 k).samples)
        (minNormFit c (sumY ((s.update t0 t1 k).samples)
          / (((s.update t0 t1 k).samples).length : ℚ))).1
        (minNormFit c (sumY ((s.update t0 t1 k).samples)
          / (((s.update t0 t1 k).samples).length : ℚ))).2
      ≤ ssr ((s.update t0 t1 k).samples) g' o' := by
  have hne : ((s.update t0 t1 k).samples).length ≠ 0 := by omega
  have hmod := update_model_of_accepted hacc hlen
  have hnorm := minNorm_normal_eqs hall hne
  constructor
  · rw [hmod, fit_of_const hall hne]
  · exact ssr_le_of_normal_eqs _ _ _ g' o' hnorm.1 hnorm.2

/-- Claim C2, witness for the amended theorem at the concrete degenerate
window: the installed model is the minimum-norm solution and it has
residual sum no larger than that of the arbitrary candidate (1, 1). -/
theorem C2_degenerate_refit_witness :
    (s2deg.update 0 0 9).model
      = some (minNormFit 0 (sumY ((s2deg.update 0 0 9).samples)
          / (((s2deg.update 0 0 9).samples).length : ℚ))) ∧
    ssr ((s2deg.update 0 0 9).samples)
        (minNormFit 0 (sumY ((s2deg.update 0 0 9).samples)
          / (((s2deg.update 0 0 9).samples).length : ℚ))).1
        (minNormFit 0 (sumY ((s2deg.update 0 0 9).samples)
          / (((s2deg.update 0 0 9).samples).length : ℚ))).2
      ≤ ssr ((s2deg.update 0 0 9).samples) 1 1 := by
  have hfin : s2deg.update 0 0 9
      = { epoch := 0, device_epoch := some 0, max_rtt := 20000000,
          samples := [((0 : ℚ), (0 : ℚ)), (0, 1), (0, 2), (0, 3), (0, 4), (0, 5),
            (0, 6), (0, 7), (0, 8), (0, 9)],
          model := some (0, 9/2) } := by
    norm_num [s2deg, ClockModel.update, windowTrim, sampleOf, estMicros, estTimeNanos,
      u64Sub, fit_time_model, detNE, sumX, sumY, sumXX, sumXY, minNormFit,
      List.range_succ, ClockModel.mk.injEq]
  exact C2_degenerate_refit s2deg 0 0 9 0 1 1
    (by norm_num [s2deg])
    (by rw [hfin]; norm_num)
    (by rw [hfin]; intro p hp; fin_cases hp <;> rfl)

/-- Claim C3, counterexample: a fresh ClockModel has no device-epoch
anchor, yet ingesting a sample whose round-trip time (30 ms) exceeds
max_rtt (20 ms) still establishes the anchor from that rejected sample:
the state is not left unchanged. -/
theorem C3_counterexample :
    (ClockModel.new 0 20000000).device_epoch = none ∧
    ((ClockModel.new 0 20000000).update 0 30000000 77).device_epoch = some 77 := by
  constructor
  · rfl
  · norm_num [ClockModel.new, ClockModel.update]

/-- Claim C3, amended: ingesting a sample whose round-trip time exceeds
max_rtt leaves the sample window, the fitted model, the epoch and the
RTT ceiling unchanged, but the device-epoch anchor is still established
from the rejected sample when none existed (the anchor assignment on
lines 99-101 precedes the RTT check on line 106). -/
theorem C3_rtt_reject (s : ClockModel) (t0 t1 : Int) (k : Nat)
    (h : t1 - t0 > s.max_rtt) :
    (s.update t0 t1 k).samples = s.samples ∧
    (s.update t0 t1 k).model = s.model ∧
    (s.update t0 t1 k).epoch = s.epoch ∧
    (s.update t0 t1 k).max_rtt = s.max_rtt ∧
    (s.update t0 t1 k).device_epoch = some (s.device_epoch.getD k) := by
  rw [update_rejected s t0 t1 k h]
  exact ⟨rfl, rfl, rfl, rfl, rfl⟩

/-- Claim C3, witness for the amended theorem at a concrete rejected
sample (RTT 2000 ns against ceiling 1000 ns). -/
theorem C3_rtt_reject_witness :
    ((ClockModel.new 5 1000).update 0 2000 9).samples = (ClockModel.new 5 1000).samples ∧
    ((ClockModel.new 5 1000).update 0 2000 9).model = (ClockModel.new 5 1000).model ∧
    ((ClockModel.new 5 1000).update 0 2000 9).epoch = (ClockModel.new 5 1000).epoch ∧
    ((ClockModel.new 5 1000).update 0 2000 9).max_rtt = (ClockModel.new 5 1000).max_rtt ∧
    ((ClockModel.new 5 1000).update 0 2000 9).device_epoch
      = some ((ClockModel.new 5 1000).device_epoch.getD 9) :=
  C3_rtt_reject (ClockModel.new 5 1000) 0 2000 9 (by norm_num [ClockModel.new])

/-- Claim C4: compute_utc does not guard against a device tick smaller
than the anchor.  With anchor 10, gain 1/1000, offset 0, resolving tick
5 wraps the u64 subtraction to 2^64 - 5 and returns a (huge) time value
instead of none. -/
theorem C4_wrapping_subtraction :
    u64Sub 5 10 = 2 ^ 64 - 5 ∧ s4wrap.device_epoch = some 10 ∧
    s4wrap.compute_utc 5 = some 18446744073709551000 := by
  refine ⟨by decide, rfl, ?_⟩
  norm_num [s4wrap, ClockModel.compute_utc, u64Sub, i64SatTrunc, truncQ]

/-- Claim C8: on a received Ping the firmware's handler (main.rs lines
175-185) emits a Pong whose payload is two u64 values — the echoed ping
payload and the current tick — and requires Ping itself to carry a
value, whereas the comms crate declares Pong(device_tick) with exactly
one u64 value and a payload-less Ping.  The firmware response does not
match the declared wire-protocol shape. -/
theorem C8_pong_shape :
    fwHandleMsg (FwToDevice.Ping 7) 42 = FwResponse.Pong 7 42 ∧
    fwResponsePayload (fwHandleMsg (FwToDevice.Ping 7) 42) = [7, 42] ∧
    (fwResponsePayload (fwHandleMsg (FwToDevice.Ping 7) 42)).length = 2 ∧
    (fromDevicePayload (FromDevice.Pong 42)).length = 1 ∧
    (fwResponsePayload (fwHandleMsg (FwToDevice.Ping 7) 42)).length
      ≠ (fromDevicePayload (FromDevice.Pong 42)).length := by
  refine ⟨rfl, rfl, rfl, rfl, by decide⟩

/-- Claim C9: ingest never removes an installed model — it either
replaces it (window at least 10) or leaves it in place, so model
presence is monotone. -/
theorem C9_model_monotone (s : ClockModel) (t0 t1 : Int) (k : Nat)
    (h : s.model.isSome) : ((s.update t0 t1 k).model).isSome := by
  by_cases hr : t1 - t0 > s.max_rtt
  · rw [update_rejected s t0 t1 k hr]
    exact h
  · rw [update_accepted s t0 t1 k (not_lt.1 hr)]
    simp only
    split
    · simp
    · exact h

/-- Claim C9, witness: a state with an installed model keeps one after a
further ingest. -/
theorem C9_model_monotone_witness : ((s4wrap.update 0 0 5).model).isSome :=
  C9_model_monotone s4wrap 0 0 5 rfl

/-- Claim C10: update discards a sample exactly when its round-trip time
strictly exceeds max_rtt (first two conjuncts), and a sample with
negative round-trip time is accepted with an estimated host time lying
strictly before the send time (third conjunct, in nanoseconds relative
to the epoch). -/
theorem C10_accept_iff (s : ClockModel) (t0 t1 : Int) (k : Nat) :
    (t1 - t0 > s.max_rtt →
      (s.update t0 t1 k).samples = s.samples ∧ (s.update t0 t1 k).model = s.model) ∧
    (t1 - t0 ≤ s.max_rtt →
      (s.update t0 t1 k).samples = windowTrim (s.samples ++ [sampleOf s t0 t1 k])) ∧
    (t1 - t0 < 0 → estTimeNanos s.epoch t0 t1 < t0 - s.epoch) := by
  refine ⟨fun h => ?_, fun h => ?_, fun h => ?_⟩
  · rw [update_rejected s t0 t1 k h]
    exact ⟨rfl, rfl⟩
  · rw [update_accepted s t0 t1 k h]
  · have hf : Int.fdiv (t1 - t0) 2 < 0 := by
      rw [Int.fdiv_eq_ediv _ (by norm_num)]
      exact Int.ediv_neg' h (by norm_num)
    unfold estTimeNanos
    omega

/-- Before warm-up the model field is untouched and each accepted sample
grows the window by exactly one entry. -/
theorem applyUpdates_model_of_lt (us : List (Int × Int × Nat)) (s : ClockModel)
    (h : s.samples.length + acceptedCount s.max_rtt us < 10) :
    (applyUpdates s us).model = s.model ∧
    (applyUpdates s us).samples.length = s.samples.length + acceptedCount s.max_rtt us := by
  induction us generalizing s with
  | nil => simp [applyUpdates, acceptedCount]
  | cons u us ih =>
    have hfold : applyUpdates s (u :: us) = applyUpdates (s.update u.1 u.2.1 u.2.2) us := rfl
    by_cases ha : u.2.1 - u.1 ≤ s.max_rtt
    · have hcount : acceptedCount s.max_rtt (u :: us) = acceptedCount s.max_rtt us + 1 := by
        simp only [acceptedCount, List.countP_cons, if_pos (decide_eq_true ha)]
      rw [hcount] at h
      have hup := update_accepted s u.1 u.2.1 u.2.2 ha
      have hlen1 : (s.samples ++ [sampleOf s u.1 u.2.1 u.2.2]).length ≤ 100 := by
        simp only [List.length_append, List.length_cons, List.length_nil]
        omega
      have hwin : windowTrim (s.samples ++ [sampleOf s u.1 u.2.1 u.2.2])
          = s.samples ++ [sampleOf s u.1 u.2.1 u.2.2] :=
        windowTrim_of_le hlen1
      have hs' : (s.update u.1 u.2.1 u.2.2).samples
          = s.samples ++ [sampleOf s u.1 u.2.1 u.2.2] := by
        rw [hup]
        exact hwin
      have hs'len : (s.update u.1 u.2.1 u.2.2).samples.length = s.samples.length + 1 := by
        rw [hs']
        simp
      have hs'model : (s.update u.1 u.2.1 u.2.2).model = s.model := by
        rw [hup]
        simp only
        rw [if_neg]
        rw [hwin]
        simp only [List.length_append, List.length_cons, List.length_nil]
        omega
      have hmax := update_max_rtt s u.1 u.2.1 u.2.2
      obtain ⟨ihm, ihl⟩ := ih (s.update u.1 u.2.1 u.2.2) (by rw [hmax, hs'len]; omega)
      refine ⟨?_, ?_⟩
      · rw [hfold, ihm, hs'model]
      · rw [hfold, ihl, hmax, hs'len, hcount]
        omega
    · have hcount : acceptedCount s.max_rtt (u :: us) = acceptedCount s.max_rtt us := by
        simp [acceptedCount, List.countP_cons, ha]
        omega
      rw [hcount] at h
      have hup := update_rejected s u.1 u.2.1 u.2.2 (not_le.1 ha)
      have h1 : (s.update u.1 u.2.1 u.2.2).samples = s.samples := by rw [hup]
      have h2 : (s.update u.1 u.2.1 u.2.2).model = s.model := by rw [hup]
      have hmax := update_max_rtt s u.1 u.2.1 u.2.2
      obtain ⟨ihm, ihl⟩ := ih (s.update u.1 u.2.1 u.2.2) (by rw [hmax, h1]; omega)
      refine ⟨?_, ?_⟩
      · rw [hfold, ihm, h2]
      · rw [hfold, ihl, hmax, h1, hcount]

/-- Claim C5: while fewer than 10 samples have been accepted since
creation, no fitted model exists and compute_utc returns none for every
device tick. -/
theorem C5_warmup (ep m : Int) (us : List (Int × Int × Nat)) (tk : Nat)
    (h : acceptedCount m us < 10) :
    (applyUpdates (ClockModel.new ep m) us).model = none ∧
    (applyUpdates (ClockModel.new ep m) us).compute_utc tk = none := by
  have haux := applyUpdates_model_of_lt us (ClockModel.new ep m)
    (by simpa [ClockModel.new] using h)
  have hm : (applyUpdates (ClockModel.new ep m) us).model = none := by
    rw [haux.1]
    rfl
  exact ⟨hm, compute_utc_of_model_none hm tk⟩

/-- Claim C5, witness: after one accepted and one rejected exchange the
model is absent and resolution returns none. -/
theorem C5_warmup_witness :
    (applyUpdates (ClockModel.new 0 20000000) [(0, 0, 0), (0, 30000000, 5)]).model = none ∧
    (applyUpdates (ClockModel.new 0 20000000) [(0, 0, 0), (0, 30000000, 5)]).compute_utc 123
      = none :=
  C5_warmup 0 20000000 [(0, 0, 0), (0, 30000000, 5)] 123 (by decide)

/-- Once a device epoch is fixed, a run of accepted exchanges turns the
window into the trimmed concatenation of the old window and the
normalized samples, in arrival order. -/
theorem applyUpdates_samples_window (us : List (Int × Int × Nat)) (s : ClockModel)
    (e : Nat) (hde : s.device_epoch = some e)
    (hacc : ∀ u ∈ us, u.2.1 - u.1 ≤ s.max_rtt)
    (hlen : s.samples.length ≤ 100) :
    (applyUpdates s us).samples
      = windowTrim (s.samples ++ us.map (sampleVal s.epoch e)) := by
  induction us generalizing s with
  | nil => simp [applyUpdates, windowTrim_of_le hlen]
  | cons u us ih =>
    have hu := hacc u (List.mem_cons_self u us)
    have hup := update_accepted s u.1 u.2.1 u.2.2 hu
    have hsm : sampleOf s u.1 u.2.1 u.2.2 = sampleVal s.epoch e u := by
      simp [sampleOf, sampleVal, hde]
    have h1 : (s.update u.1 u.2.1 u.2.2).samples
        = windowTrim (s.samples ++ [sampleVal s.epoch e u]) := by
      rw [hup, hsm]
    have hde' : (s.update u.1 u.2.1 u.2.2).device_epoch = some e := by
      rw [update_device_epoch, hde]
      rfl
    have hacc' : ∀ v ∈ us, v.2.1 - v.1 ≤ (s.update u.1 u.2.1 u.2.2).max_rtt := by
      rw [update_max_rtt]
      exact fun v hv => hacc v (List.mem_cons_of_mem u hv)
    have hlen' : (s.update u.1 u.2.1 u.2.2).samples.length ≤ 100 := by
      rw [h1]
      exact windowTrim_length_le _
    have hfold : applyUpdates s (u :: us) = applyUpdates (s.update u.1 u.2.1 u.2.2) us := rfl
    rw [hfold, ih (s.update u.1 u.2.1 u.2.2) hde' hacc' hlen', update_epoch, h1,
      windowTrim_append]
    congr 1
    rw [List.map_cons, List.append_assoc]
    rfl

/-- The window length never exceeds 100 along any run. -/
theorem applyUpdates_length_le (us : List (Int × Int × Nat)) (s : ClockModel)
    (h : s.samples.length ≤ 100) :
    (applyUpdates s us).samples.length ≤ 100 := by
  induction us generalizing s with
  | nil => exact h
  | cons u us ih =>
    have hfold : applyUpdates s (u :: us) = applyUpdates (s.update u.1 u.2.1 u.2.2) us := rfl
    rw [hfold]
    apply ih
    by_cases hr : u.2.1 - u.1 > s.max_rtt
    · rw [update_rejected s u.1 u.2.1 u.2.2 hr]
      exact h
    · rw [update_accepted s u.1 u.2.1 u.2.2 (not_lt.1 hr)]
      exact windowTrim_length_le _

/-- Claim C6: starting from a fresh model, after 101 accepted exchanges
the window holds exactly 100 entries and equals the normalized samples
with the earliest-arrived one dropped (FIFO eviction); moreover every
prefix of the run keeps the window at no more than 100 entries. -/
theorem C6_window_fifo (ep m : Int) (u0 : Int × Int × Nat)
    (rest : List (Int × Int × Nat)) (n : Nat)
    (hr : rest.length = 100)
    (hacc : ∀ u ∈ u0 :: rest, u.2.1 - u.1 ≤ m) :
    ((applyUpdates (ClockModel.new ep m) (u0 :: rest)).samples).length = 100 ∧
    (applyUpdates (ClockModel.new ep m) (u0 :: rest)).samples
      = ((u0 :: rest).map (sampleVal ep u0.2.2)).drop 1 ∧
    ((applyUpdates (ClockModel.new ep m) ((u0 :: rest).take n)).samples).length ≤ 100 := by
  have h0 : u0.2.1 - u0.1 ≤ (ClockModel.new ep m).max_rtt :=
    hacc u0 (List.mem_cons_self u0 rest)
  have hup := update_accepted (ClockModel.new ep m) u0.1 u0.2.1 u0.2.2 h0
  have hx : sampleOf (ClockModel.new ep m) u0.1 u0.2.1 u0.2.2
      = sampleVal ep u0.2.2 u0 := by
    simp [sampleOf, sampleVal, ClockModel.new]
  have h1samples : ((ClockModel.new ep m).update u0.1 u0.2.1 u0.2.2).samples
      = [sampleVal ep u0.2.2 u0] := by
    rw [hup, hx]
    exact windowTrim_of_le (by simp [ClockModel.new])
  have hde1 : ((ClockModel.new ep m).update u0.1 u0.2.1 u0.2.2).device_epoch
      = some u0.2.2 := by
    rw [update_device_epoch]
    rfl
  have hacc1 : ∀ v ∈ rest,
      v.2.1 - v.1 ≤ ((ClockModel.new ep m).update u0.1 u0.2.1 u0.2.2).max_rtt := by
    rw [update_max_rtt]
    exact fun v hv => hacc v (List.mem_cons_of_mem u0 hv)
  have hlen1 : ((ClockModel.new ep m).update u0.1 u0.2.1 u0.2.2).samples.length ≤ 100 := by
    rw [h1samples]
    simp
  have hw := applyUpdates_samples_window rest
    ((ClockModel.new ep m).update u0.1 u0.2.1 u0.2.2) u0.2.2 hde1 hacc1 hlen1
  rw [update_epoch, h1samples] at hw
  have hfold : applyUpdates (ClockModel.new ep m) (u0 :: rest)
      = applyUpdates ((ClockModel.new ep m).update u0.1 u0.2.1 u0.2.2) rest := rfl
  have hmap : [sampleVal ep u0.2.2 u0] ++ rest.map (sampleVal ep u0.2.2)
      = (u0 :: rest).map (sampleVal ep u0.2.2) := by
    simp
  have hep : (ClockModel.new ep m).epoch = ep := rfl
  rw [hep, hmap] at hw
  have hlen101 : ((u0 :: rest).map (sampleVal ep u0.2.2)).length = 101 := by
    simp [hr]
  have hdrop : windowTrim ((u0 :: rest).map (sampleVal ep u0.2.2))
      = ((u0 :: rest).map (sampleVal ep u0.2.2)).drop 1 := by
    rw [windowTrim, hlen101]
  refine ⟨?_, ?_, ?_⟩
  · rw [hfold, hw, hdrop, List.length_drop, hlen101]
  · rw [hfold, hw, hdrop]
  · exact applyUpdates_length_le _ _ (by simp [ClockModel.new])

/-- Claim C6, witness: 101 identical accepted exchanges from a fresh
model. -/
theorem C6_window_fifo_witness :
    ((applyUpdates (ClockModel.new 0 20000000)
        (((0 : Int), (0 : Int), (0 : Nat)) :: List.replicate 100 ((0 : Int), (0 : Int), (0 : Nat)))).samples).length = 100 ∧
    (applyUpdates (ClockModel.new 0 20000000)
        (((0 : Int), (0 : Int), (0 : Nat)) :: List.replicate 100 ((0 : Int), (0 : Int), (0 : Nat)))).samples
      = (((((0 : Int), (0 : Int), (0 : Nat)) :: List.replicate 100 ((0 : Int), (0 : Int), (0 : Nat))).map
          (sampleVal 0 (((0 : Int), (0 : Int), (0 : Nat)) : Int × Int × Nat).2.2)).drop 1) ∧
    ((applyUpdates (ClockModel.new 0 20000000)
        ((((0 : Int), (0 : Int), (0 : Nat)) :: List.replicate 100 ((0 : Int), (0 : Int), (0 : Nat))).take 50)).samples).length ≤ 100 :=
  C6_window_fifo 0 20000000 ((0 : Int), (0 : Int), (0 : Nat))
    (List.replicate 100 ((0 : Int), (0 : Int), (0 : Nat))) 50
    (by simp)
    (by
      intro u hu
      rcases List.mem_cons.1 hu with h | h
      · subst h
        norm_num
      · rw [List.eq_of_mem_replicate h]
        norm_num)

/-- Claim C7: for an accepted sample whose round-trip time is an even
number 2h of nanoseconds and whose midpoint send_time + h falls on an
exact microsecond 1000·m relative to the epoch, the recorded host-time
component is exactly m microseconds — i.e. send_time + rtt/2 expressed
in microseconds relative to the epoch anchor.  With rtt = 10 ms this is
send_time + 5 ms. -/
theorem C7_midpoint (s : ClockModel) (t0 t1 h m : Int) (k : Nat)
    (hacc : t1 - t0 ≤ s.max_rtt)
    (heven : t1 - t0 = 2 * h)
    (hexact : (t0 - s.epoch) + h = 1000 * m) :
    ((s.update t0 t1 k).samples).getLast?
      = some ((m : ℚ), ((u64Sub k (s.device_epoch.getD k) : Nat) : ℚ)) := by
  rw [update_accepted s t0 t1 k hacc]
  simp only
  rw [windowTrim_concat_getLast?]
  have hest : estMicros s.epoch t0 t1 = m := by
    rw [estMicros, estTimeNanos, heven, Int.mul_fdiv_cancel_left h (by norm_num), hexact,
      Int.mul_tdiv_cancel_left m (by norm_num)]
  rw [sampleOf, hest]

/-- Claim C7, witness: a Ping sent at the epoch whose Pong arrives 10 ms
later records host-time component 5000 µs = 5 ms. -/
theorem C7_midpoint_witness :
    (((ClockModel.new 0 20000000).update 0 10000000 3).samples).getLast?
      = some ((((5000 : Int)) : ℚ),
          ((u64Sub 3 ((ClockModel.new 0 20000000).device_epoch.getD 3) : Nat) : ℚ)) :=
  C7_midpoint (ClockModel.new 0 20000000) 0 10000000 5000000 5000 3
    (by norm_num [ClockModel.new]) (by norm_num) (by norm_num [ClockModel.new])

/-- Claim C10, witness: a rejected sample (RTT 1 s against ceiling
20 ms) leaves window and model unchanged; an accepted zero-RTT sample is
appended; a negative-RTT sample (receive 1000 ns before send) yields an
estimated host time strictly before the send time. -/
theorem C10_accept_iff_witness :
    ((s4wrap.update 0 1000000000 5).samples = s4wrap.samples ∧
      (s4wrap.update 0 1000000000 5).model = s4wrap.model) ∧
    (s4wrap.update 0 0 5).samples = windowTrim (s4wrap.samples ++ [sampleOf s4wrap 0 0 5]) ∧
    estTimeNanos s4wrap.epoch 1000 0 < 1000 - s4wrap.epoch :=
  ⟨(C10_accept_iff s4wrap 0 1000000000 5).1 (by norm_num [s4wrap]),
   (C10_accept_iff s4wrap 0 0 5).2.1 (by norm_num [s4wrap]),
   (C10_accept_iff s4wrap 1000 0 5).2.2 (by norm_num)⟩

end RedButton
